import Mathlib

/-!
Verification development for the PubMed search client (`client.py`,
`schemas.py`, `config.py`).  The Python source is shallowly embedded:
pure helpers become Lean functions, the stateful HTTP/cache interaction
of `_make_request` becomes a function of the explicit behaviours of the
transport and the cache backend, and Python exceptions become an
explicit `Except` error channel.  Machine-level details (MD5, UTF-8,
JSON serialization of string dictionaries) are embedded faithfully.
-/

namespace Py

/-- Characters stripped by Python `str.strip()` (ASCII whitespace subset
relevant to this codebase). -/
def pyIsSpace (c : Char) : Bool :=
  c = ' ' || c = '\t' || c = '\n' || c = '\r' || c = '\x0b' || c = '\x0c'

/-- Python `str.strip()`. -/
def pyStrip (s : String) : String :=
  String.mk ((s.data.dropWhile pyIsSpace).reverse.dropWhile pyIsSpace |>.reverse)

/-- Python `str.endswith` for a single-character suffix. -/
def endsWithChar (s : String) (c : Char) : Bool :=
  match s.data.reverse with
  | [] => false
  | d :: _ => d = c

/-- Python `str.replace(old, '')` for a single character: drop every
occurrence. -/
def removeChar (s : String) (c : Char) : String :=
  String.mk (s.data.filter (fun d => d ≠ c))

/-- UTF-8 encoding of one character, as `str.encode()` performs it. -/
def utf8Bytes (c : Char) : List Nat :=
  let n := c.toNat
  if n < 0x80 then [n]
  else if n < 0x800 then [0xC0 + n / 64, 0x80 + n % 64]
  else if n < 0x10000 then [0xE0 + n / 4096, 0x80 + (n / 64) % 64, 0x80 + n % 64]
  else [0xF0 + n / 262144, 0x80 + (n / 4096) % 64, 0x80 + (n / 64) % 64, 0x80 + n % 64]

/-- `str.encode()`: UTF-8 bytes of a string. -/
def strUtf8 (s : String) : List Nat :=
  (s.data.map utf8Bytes).flatten

end Py

namespace MD5

/-- The 64 round constants of MD5 (RFC 1321 table T). -/
def T : List Nat :=
  [0xd76aa478, 0xe8c7b756, 0x242070db, 0xc1bdceee,
   0xf57c0faf, 0x4787c62a, 0xa8304613, 0xfd469501,
   0x698098d8, 0x8b44f7af, 0xffff5bb1, 0x895cd7be,
   0x6b901122, 0xfd987193, 0xa679438e, 0x49b40821,
   0xf61e2562, 0xc040b340, 0x265e5a51, 0xe9b6c7aa,
   0xd62f105d, 0x02441453, 0xd8a1e681, 0xe7d3fbc8,
   0x21e1cde6, 0xc33707d6, 0xf4d50d87, 0x455a14ed,
   0xa9e3e905, 0xfcefa3f8, 0x676f02d9, 0x8d2a4c8a,
   0xfffa3942, 0x8771f681, 0x6d9d6122, 0xfde5380c,
   0xa4beea44, 0x4bdecfa9, 0xf6bb4b60, 0xbebfbc70,
   0x289b7ec6, 0xeaa127fa, 0xd4ef3085, 0x04881d05,
   0xd9d4d039, 0xe6db99e5, 0x1fa27cf8, 0xc4ac5665,
   0xf4292244, 0x432aff97, 0xab9423a7, 0xfc93a039,
   0x655b59c3, 0x8f0ccc92, 0xffeff47d, 0x85845dd1,
   0x6fa87e4f, 0xfe2ce6e0, 0xa3014314, 0x4e0811a1,
   0xf7537e82, 0xbd3af235, 0x2ad7d2bb, 0xeb86d391]

/-- Per-round left-rotation amounts. -/
def S : List Nat :=
  [7, 12, 17, 22, 7, 12, 17, 22, 7, 12, 17, 22, 7, 12, 17, 22,
   5, 9, 14, 20, 5, 9, 14, 20, 5, 9, 14, 20, 5, 9, 14, 20,
   4, 11, 16, 23, 4, 11, 16, 23, 4, 11, 16, 23, 4, 11, 16, 23,
   6, 10, 15, 21, 6, 10, 15, 21, 6, 10, 15, 21, 6, 10, 15, 21]

def w32 (n : Nat) : Nat := n % 4294967296

def leftrot (x n : Nat) : Nat :=
  w32 (x <<< n) + x >>> (32 - n)

def fF (b c d : Nat) : Nat := (b &&& c) ||| ((b ^^^ 0xFFFFFFFF) &&& d)
def fG (b c d : Nat) : Nat := (d &&& b) ||| ((d ^^^ 0xFFFFFFFF) &&& c)
def fH (b c d : Nat) : Nat := b ^^^ c ^^^ d
def fI (b c d : Nat) : Nat := c ^^^ (b ||| (d ^^^ 0xFFFFFFFF))

/-- One of the 64 rounds applied to the state `(a, b, c, d)`, with `M`
the 16 little-endian message words of the current chunk. -/
def round (M : Nat → Nat) (st : Nat × Nat × Nat × Nat) (i : Nat) :
    Nat × Nat × Nat × Nat :=
  let (a, b, c, d) := st
  let f := if i < 16 then fF b c d
           else if i < 32 then fG b c d
           else if i < 48 then fH b c d
           else fI b c d
  let g := if i < 16 then i
           else if i < 32 then (5 * i + 1) % 16
           else if i < 48 then (3 * i + 5) % 16
           else (7 * i) % 16
  let x := w32 (f + a + T.getD i 0 + M g)
  (d, w32 (b + leftrot x (S.getD i 0)), b, c)

/-- Little-endian 32-bit word read from four bytes of a chunk. -/
def word (chunk : List Nat) (g : Nat) : Nat :=
  chunk.getD (4 * g) 0 + 256 * chunk.getD (4 * g + 1) 0 +
    65536 * chunk.getD (4 * g + 2) 0 + 16777216 * chunk.getD (4 * g + 3) 0

/-- Process one 64-byte chunk. -/
def processChunk (st : Nat × Nat × Nat × Nat) (chunk : List Nat) :
    Nat × Nat × Nat × Nat :=
  let (a0, b0, c0, d0) := st
  let (a, b, c, d) := (List.range 64).foldl (round (word chunk)) (a0, b0, c0, d0)
  (w32 (a0 + a), w32 (b0 + b), w32 (c0 + c), w32 (d0 + d))

/-- MD5 padding: `0x80`, zeros to 56 mod 64, then the bit length as a
64-bit little-endian integer. -/
def pad (msg : List Nat) : List Nat :=
  let len := msg.length
  let zeros := (119 - len % 64) % 64
  let bitLen := (8 * len) % 18446744073709551616
  msg ++ [0x80] ++ List.replicate zeros 0 ++
    [bitLen % 256, bitLen / 256 % 256, bitLen / 65536 % 256,
     bitLen / 16777216 % 256, bitLen / 4294967296 % 256,
     bitLen / 1099511627776 % 256, bitLen / 281474976710656 % 256,
     bitLen / 72057594037927936 % 256]

/-- Split a byte list into 64-byte chunks (structural recursion on a
fuel bounded by the list length, so the kernel can evaluate it). -/
def chunks64Aux : Nat → List Nat → List (List Nat)
  | _, [] => []
  | 0, _ => []
  | fuel + 1, l => l.take 64 :: chunks64Aux fuel (l.drop 64)

/-- Split a byte list into 64-byte chunks. -/
def chunks64 (l : List Nat) : List (List Nat) :=
  chunks64Aux l.length l

/-- Four little-endian bytes of a 32-bit word. -/
def le4 (x : Nat) : List Nat :=
  [x % 256, x / 256 % 256, x / 65536 % 256, x / 16777216 % 256]

/-- The 16 digest bytes of the MD5 of a byte string. -/
def digest (msg : List Nat) : List Nat :=
  let init : Nat × Nat × Nat × Nat :=
    (0x67452301, 0xefcdab89, 0x98badcfe, 0x10325476)
  let st := (chunks64 (pad msg)).foldl processChunk init
  le4 st.1 ++ le4 st.2.1 ++ le4 st.2.2.1 ++ le4 st.2.2.2

def hexDigit (n : Nat) : Char :=
  if n < 10 then Char.ofNat (48 + n) else Char.ofNat (87 + n)

/-- Two lowercase hex characters of one byte. -/
def hexByte (b : Nat) : List Char :=
  [hexDigit (b / 16), hexDigit (b % 16)]

/-- `hashlib.md5(msg).hexdigest()`. -/
def hexdigest (msg : List Nat) : String :=
  String.mk ((digest msg).flatMap hexByte)

end MD5

namespace PyJson

def hex4Digit (n : Nat) : Char :=
  if n < 10 then Char.ofNat (48 + n) else Char.ofNat (87 + n)

/-- Four lowercase hex digits, as in a JSON `\uXXXX` escape. -/
def hex4 (n : Nat) : String :=
  String.mk [hex4Digit (n / 4096 % 16), hex4Digit (n / 256 % 16),
             hex4Digit (n / 16 % 16), hex4Digit (n % 16)]

/-- `json.dumps` escaping of one character (`ensure_ascii=True`, the
default used by the client). -/
def jsonEscapeChar (c : Char) : String :=
  if c = '"' then "\\\""
  else if c = '\\' then "\\\\"
  else if c = '\n' then "\\n"
  else if c = '\r' then "\\r"
  else if c = '\t' then "\\t"
  else if c = '\x08' then "\\b"
  else if c = '\x0c' then "\\f"
  else if c.toNat < 0x20 then "\\u" ++ hex4 c.toNat
  else if c.toNat < 0x7f then String.singleton c
  else if c.toNat < 0x10000 then "\\u" ++ hex4 c.toNat
  else
    let m := c.toNat - 0x10000
    "\\u" ++ hex4 (0xD800 + m / 1024) ++ "\\u" ++ hex4 (0xDC00 + m % 1024)

/-- A JSON string literal for `s`. -/
def jsonStr (s : String) : String :=
  "\"" ++ String.join (s.data.map jsonEscapeChar) ++ "\""

/-- The comparison `sorted(d.items())` uses: Python tuple order, i.e.
lexicographic on the `(key, value)` pair of strings. -/
def pairLe (a b : String × String) : Bool :=
  decide (a.1 < b.1 ∨ (a.1 = b.1 ∧ a.2 ≤ b.2))

/-- `sorted(params.items())` as performed by `json.dumps(..., sort_keys=True)`
(insertion sort computes the same list as any stable sort under this
total order, and the kernel can evaluate it). -/
def sortedItems (params : List (String × String)) : List (String × String) :=
  List.insertionSort (fun a b => pairLe a b = true) params

/-- `json.dumps(params, sort_keys=True)` for a string-valued dict, with
the default separators `(', ', ': ')`. -/
def dumpsSorted (params : List (String × String)) : String :=
  "\x7b" ++ String.intercalate ", "
      ((sortedItems params).map (fun kv => jsonStr kv.1 ++ ": " ++ jsonStr kv.2))
    ++ "\x7d"

end PyJson

namespace NCBIClient

/-- The string hashed by `_generate_cache_key`:
`f"{url}?{json.dumps(params, sort_keys=True)}"`. -/
def key_string (url : String) (params : List (String × String)) : String :=
  url ++ "?" ++ PyJson.dumpsSorted params

/-- `NCBIClient._generate_cache_key`. -/
def generate_cache_key (url : String) (params : List (String × String)) : String :=
  "pubmed_cache:" ++ MD5.hexdigest (Py.strUtf8 (key_string url params))

end NCBIClient

/-- Python values as decoded from JSON (`json.loads` output); `null`
doubles as Python `None`. -/
inductive Json where
  | null
  | bool (b : Bool)
  | num (n : Int)
  | str (s : String)
  | arr (elems : List Json)
  | obj (fields : List (String × Json))

namespace Json

/-- Structural equality of decoded values (Python `==` on the value
shapes `json.loads` can produce). -/
def pyEq (a b : Json) : Bool :=
  match a, b with
  | null, null => true
  | bool x, bool y => x == y
  | num x, num y => x == y
  | str x, str y => x == y
  | arr xs, arr ys => pyEqElems xs ys
  | obj fs, obj gs => pyEqPairs fs gs
  | _, _ => false
where
  pyEqElems : List Json → List Json → Bool
    | [], [] => true
    | _ :: _, [] => false
    | [], _ :: _ => false
    | x :: xs, y :: ys => pyEq x y && pyEqElems xs ys
  pyEqPairs : List (String × Json) → List (String × Json) → Bool
    | [], [] => true
    | _ :: _, [] => false
    | [], _ :: _ => false
    | p :: ps, q :: qs => p.1 == q.1 && pyEq p.2 q.2 && pyEqPairs ps qs

instance : BEq Json := ⟨pyEq⟩

/-- Python truthiness of a decoded value. -/
def truthy : Json → Bool
  | null => false
  | bool b => b
  | num n => n != 0
  | str s => s != ""
  | arr [] => false
  | arr (_ :: _) => true
  | obj [] => false
  | obj (_ :: _) => true

end Json

/-- Kinds of Python exception observable at the client's boundary. -/
inductive PyErr where
  | validationError
  | keyError
  | indexError
  | attributeError
  | typeError
  | jsonDecodeError
  | timeoutError
deriving DecidableEq, Repr

/-- First binding of a key in a decoded JSON object. -/
def jsonLookup (kvs : List (String × Json)) (k : String) : Option Json :=
  (kvs.find? (fun kv => kv.1 = k)).map (fun kv => kv.2)

/-- Python `d.get(k)` (no default): `None` for a missing key,
`AttributeError` on a non-dict receiver. -/
def pyGet (j : Json) (k : String) : Except PyErr Json :=
  match j with
  | .obj kvs => .ok ((jsonLookup kvs k).getD .null)
  | _ => .error .attributeError

/-- Python `d.get(k, default)`. -/
def pyGetD (j : Json) (k : String) (d : Json) : Except PyErr Json :=
  match j with
  | .obj kvs => .ok ((jsonLookup kvs k).getD d)
  | _ => .error .attributeError

/-- Python `needle in container` for the shapes the client traverses. -/
def pyInJson (needle container : Json) : Except PyErr Bool :=
  match container with
  | .obj kvs =>
    match needle with
    | .str s => .ok ((jsonLookup kvs s).isSome)
    | .arr _ => .error .typeError
    | .obj _ => .error .typeError
    | _ => .ok false
  | .arr xs => .ok (xs.contains needle)
  | .str s =>
    match needle with
    | .str sub => .ok (decide (sub.data <:+: s.data))
    | _ => .error .typeError
  | _ => .error .typeError

/-- Python subscript `container[idx]` for the shapes the client
traverses (non-negative indices). -/
def pySubscript (container idx : Json) : Except PyErr Json :=
  match container with
  | .obj kvs =>
    match idx with
    | .str s =>
      match jsonLookup kvs s with
      | some v => .ok v
      | none => .error .keyError
    | .arr _ => .error .typeError
    | .obj _ => .error .typeError
    | _ => .error .keyError
  | .arr xs =>
    match idx with
    | .num n =>
      if h : 0 ≤ n ∧ n.toNat < xs.length then .ok (xs.get ⟨n.toNat, h.2⟩)
      else .error .indexError
    | _ => .error .typeError
  | .str s =>
    match idx with
    | .num n =>
      if h : 0 ≤ n ∧ n.toNat < s.data.length then
        .ok (.str (String.singleton (s.data.get ⟨n.toNat, h.2⟩)))
      else .error .indexError
    | _ => .error .typeError
  | _ => .error .typeError

namespace NCBIClient

def MAX_RETRIES : Nat := 4

/-- `RETRY_DELAY = 2.0` (exact in the small powers the loop takes). -/
def RETRY_DELAY : ℚ := 2

/-- Python dict assignment `params[k] = v`: replace in place or append. -/
def dictInsert : List (String × String) → String → String → List (String × String)
  | [], k, v => [(k, v)]
  | (k', v') :: rest, k, v =>
    if k' = k then (k, v) :: rest else (k', v') :: dictInsert rest k v

/-- Observable behaviour of one HTTP GET attempt inside `_make_request`:
either the response decodes to a value, or decoding raises
`json.JSONDecodeError` (uncaught), or `raise_for_status` raises a
`ClientResponseError` with the given status (a `ContentTypeError` from a
2xx body is the same exception class and is covered by its status), or a
transport-level `aiohttp.ClientError` occurs, or the 30s total timeout
raises `asyncio.TimeoutError` (not an `aiohttp.ClientError`). -/
inductive AttemptOutcome where
  | ok (v : Json)
  | okMalformed
  | httpError (status : Nat)
  | transportError
  | timeout

/-- Behaviour of the Redis cache lookup at the head of `_make_request`:
no backend configured, a hit whose stored payload `json.loads` decodes,
a hit whose stored payload is corrupt (`json.loads` raises), a miss, or
a `RedisError` (caught, treated as a miss). -/
inductive CacheGet where
  | noRedis
  | hitOk (v : Json)
  | hitMalformed
  | miss
  | getError

/-- Result of the retry loop: the returned value (`.ok none` is the
`return None` failure signal, `.error e` an uncaught exception) together
with the list of backoff sleeps actually performed. -/
structure FetchOutcome where
  result : Except PyErr (Option Json)
  delays : List ℚ

/-- The `for attempt in range(self.MAX_RETRIES)` loop of
`_make_request`, lines 62–92 of `client.py`.  `remaining` is the number
of loop iterations left (structural fuel, `attempt + remaining =
MAX_RETRIES` at every call).  A transient status (429 or ≥ 500) computes
`delay = RETRY_DELAY ** attempt` and sleeps only when
`attempt < MAX_RETRIES - 1`; any other caught `ClientError` breaks; the
loop falling through returns `None`. -/
def attempt_loop (outcomes : Nat → AttemptOutcome) :
    Nat → Nat → List ℚ → FetchOutcome
  | _, 0, delays => ⟨.ok none, delays⟩
  | attempt, r + 1, delays =>
    match outcomes attempt with
    | .ok v => ⟨.ok (some v), delays⟩
    | .okMalformed => ⟨.error .jsonDecodeError, delays⟩
    | .timeout => ⟨.error .timeoutError, delays⟩
    | .transportError => ⟨.ok none, delays⟩
    | .httpError s =>
      if s = 429 ∨ 500 ≤ s then
        if attempt < MAX_RETRIES - 1 then
          attempt_loop outcomes (attempt + 1) r (delays ++ [RETRY_DELAY ^ attempt])
        else
          attempt_loop outcomes (attempt + 1) r delays
      else ⟨.ok none, delays⟩

/-- Everything observable about one `_make_request` call: the caller's
`params` dict after the call (it is mutated in place when a credential
is configured), the cache key that was computed, the returned value and
the backoff sleeps. -/
structure MakeRequestOutcome where
  params_after : List (String × String)
  cache_key : String
  result : Except PyErr (Option Json)
  delays : List ℚ

/-- `NCBIClient._make_request`, parameterised by the configured API
credential, the cache-lookup behaviour and the per-attempt transport
behaviour.  A cache hit returns the decoded payload with no network
attempt; a corrupt cached payload raises `json.JSONDecodeError`
(uncaught in the source); otherwise the retry loop runs. -/
def make_request (api_key : Option String) (url : String)
    (params : List (String × String)) (cache : CacheGet)
    (outcomes : Nat → AttemptOutcome) : MakeRequestOutcome :=
  let params1 := match api_key with
    | some k => dictInsert params "api_key" k
    | none => params
  let key := generate_cache_key url params1
  match cache with
  | .hitOk v => ⟨params1, key, .ok (some v), []⟩
  | .hitMalformed => ⟨params1, key, .error .jsonDecodeError, []⟩
  | _ =>
    let fo := attempt_loop outcomes 0 MAX_RETRIES []
    ⟨params1, key, fo.result, fo.delays⟩

/-- `data.get("esearchresult", {}).get("idlist", []) if data else []`,
the tail of both `search_pubmed_ids` and `find_related_ids` (lines 104
and 154), applied to the optional `_make_request` value. -/
def extract_idlist (data : Option Json) : Except PyErr Json :=
  match data with
  | none => .ok (.arr [])
  | some d =>
    if d.truthy then do
      let e ← pyGetD d "esearchresult" (.obj [])
      pyGetD e "idlist" (.arr [])
    else .ok (.arr [])

/-- Inside a bracket with `n` letters already consumed: does the rest
close the bracket after 2–4 total ASCII letters? -/
def tagLetters : List Char → Nat → Bool
  | [], _ => false
  | c :: rest, n =>
    if c = ']' then decide (2 ≤ n) && decide (n ≤ 4)
    else if c.isAlpha && decide (n < 4) then tagLetters rest (n + 1) else false

/-- Does a bracketed field tag start exactly at this position? -/
def tagAt : List Char → Bool
  | [] => false
  | c :: rest => if c = '[' then tagLetters rest 0 else false

/-- Scanner for `re.search(r'\[[A-Za-z]{2,4}\]', query)`: is a bracketed
2–4-letter field tag present anywhere in the list? -/
def hasTagFrom : List Char → Bool
  | [] => false
  | c :: rest => tagAt (c :: rest) || hasTagFrom rest

/-- `re.search(r'\[[A-Za-z]{2,4}\]', query) is not None`. -/
def hasFieldTag (query : String) : Bool :=
  hasTagFrom query.data

/-- The `final_query` of `search_pubmed_ids` (line 96):
`f"({query}){search_field}" if search_field and not re.search(...) else query`.
An absent or empty `search_field` is falsy in Python. -/
def search_term (query : String) (search_field : Option String) : String :=
  match search_field with
  | some f => if f ≠ "" ∧ ¬ hasFieldTag query then "(" ++ query ++ ")" ++ f else query
  | none => query

/-- Observable behaviour of one `search_pubmed_ids` call: the term sent
upstream, the query parameters of the request, and the returned id
list (raw decoded value). -/
structure SearchOutcome where
  term : String
  params : List (String × String)
  result : Except PyErr Json

/-- `NCBIClient.search_pubmed_ids`, parameterised by the decoded
response of its single `_make_request` call. -/
def search_pubmed_ids (query : String) (search_field : Option String)
    (max_results : Nat) (start_date end_date : Option String)
    (response : Option Json) : SearchOutcome :=
  let final_query := search_term query search_field
  let params : List (String × String) :=
    [("db", "pubmed"), ("term", final_query), ("retmode", "json"),
     ("retmax", toString max_results), ("sort", "date")]
  let params := match start_date with
    | some sd => dictInsert (dictInsert params "datetype" "pdat") "mindate" sd
    | none => params
  let params := match end_date with
    | some ed => dictInsert (dictInsert params "datetype" "pdat") "maxdate" ed
    | none => params
  ⟨final_query, params, extract_idlist response⟩

/-- `schemas.SpellCheckResponse`. -/
structure SpellCheckResponse where
  original_query : String
  corrected_query : Option String
  has_correction : Bool
deriving DecidableEq, Repr

/-- Python `str.lower()` (ASCII case folding, which is all the client's
queries exercise). -/
def pyLower (s : String) : String :=
  String.mk (s.data.map Char.toLower)

/-- `NCBIClient.check_spelling`, parameterised by the decoded response
of its `_make_request` call.  A non-string truthy `corrected` value
raises `AttributeError` at `.lower()` (uncaught in the source). -/
def check_spelling (query : String) (response : Option Json) :
    Except PyErr SpellCheckResponse :=
  match response with
  | none => .ok ⟨query, none, false⟩
  | some data =>
    if ¬ data.truthy then .ok ⟨query, none, false⟩
    else do
      let e ← pyGetD data "es-result" (.obj [])
      let corrected ← pyGet e "corrected"
      if corrected.truthy then
        match corrected with
        | .str c => .ok ⟨query, some c, pyLower c ≠ pyLower query⟩
        | _ => .error .attributeError
      else
        match corrected with
        | .str c => .ok ⟨query, some c, false⟩
        | .null => .ok ⟨query, none, false⟩
        | _ => .ok ⟨query, none, false⟩

/-- `schemas.ArticleSummary`. -/
structure ArticleSummary where
  pmid : String
  title : String
  pub_date : String
  journal : String
  authors : List String
deriving DecidableEq, Repr

/-- pydantic validation of a `str` field: any non-string value raises
`ValidationError` (pydantic v2 does not coerce numbers or `None`). -/
def asStr : Json → Except PyErr String
  | .str s => .ok s
  | _ => .error .validationError

/-- Iterating a decoded value, as the author list comprehension does:
lists iterate their elements, strings their characters, dicts their
keys; anything else raises `TypeError` (uncaught in the source). -/
def pyIterate : Json → Except PyErr (List Json)
  | .arr xs => .ok xs
  | .str s => .ok (s.data.map (fun c => .str (String.singleton c)))
  | .obj kvs => .ok (kvs.map (fun kv => .str kv.1))
  | _ => .error .typeError

/-- One `ArticleSummary(...)` construction in `get_summaries` (lines
129–135): the keyword arguments are evaluated first (errors there are
uncaught), then pydantic validates every field (a failure there is the
`ValidationError` the source catches). -/
def build_summary (info : Json) : Except PyErr ArticleSummary := do
  let uid ← pyGetD info "uid" (.str "")
  let title ← pyGetD info "title" (.str "No Title")
  let pubdate ← pyGetD info "pubdate" (.str "")
  let source ← pyGetD info "source" (.str "")
  let authorsJson ← pyGetD info "authors" (.arr [])
  let authorElems ← pyIterate authorsJson
  let authorNames ← authorElems.mapM (fun a => pyGetD a "name" (.str ""))
  let pmid ← asStr uid
  let titleS ← asStr title
  let pd ← asStr pubdate
  let js ← asStr source
  let authors ← authorNames.mapM asStr
  .ok ⟨pmid, titleS, pd, js, authors⟩

/-- Observable behaviour of one `get_summaries` call: the returned list
and whether the network leg (`_make_request`) was reached at all. -/
structure SummariesOutcome where
  result : Except PyErr (List ArticleSummary)
  networkCalled : Bool

/-- The per-uid loop body of `get_summaries` (lines 125–138): construct
a summary for every uid present as a key of `result`, skipping (only)
records whose construction raises `ValidationError`. -/
def summaries_loop (result : Json) (uidElems : List Json)
    (acc : List ArticleSummary) : Except PyErr (List ArticleSummary) :=
  match uidElems with
  | [] => .ok acc
  | pmidJ :: rest => do
    let isIn ← pyInJson pmidJ result
    if isIn then do
      let info ← pySubscript result pmidJ
      match build_summary info with
      | .ok summary => summaries_loop result rest (acc ++ [summary])
      | .error .validationError => summaries_loop result rest acc
      | .error e => .error e
    else
      summaries_loop result rest acc

/-- `NCBIClient.get_summaries`, parameterised by the decoded response of
its `_make_request` call.  An empty id list returns `[]` before any
request is issued. -/
def get_summaries (pmids : List String) (response : Option Json) :
    SummariesOutcome :=
  match pmids with
  | [] => ⟨.ok [], false⟩
  | _ :: _ =>
    let res : Except PyErr (List ArticleSummary) := do
      match response with
      | none => pure []
      | some data =>
        if ¬ data.truthy then pure []
        else do
          let hasResult ← pyInJson (.str "result") data
          if ¬ hasResult then pure []
          else do
            let result ← pySubscript data (.str "result")
            let uidsJ ← pyGetD result "uids" (.arr [])
            let uidElems ← pyIterate uidsJ
            summaries_loop result uidElems []
    ⟨res, true⟩

/-- Observable behaviour of one `find_related_ids` call: the returned id
list (raw decoded value), whether the phase-2 `esearch` request was
issued, and — when it was — the `query_key` and `WebEnv` values it
carried. -/
structure RelatedOutcome where
  ids : Except PyErr Json
  phase2Called : Bool
  phase2Query : Option (Json × Json)

/-- `NCBIClient.find_related_ids`, parameterised by the decoded
responses of its two `_make_request` calls (the second is only
consulted when the source issues the phase-2 request). -/
def find_related_ids (phase1 : Option Json) (phase2 : Option Json) :
    RelatedOutcome :=
  match phase1 with
  | none => ⟨.ok (.arr []), false, none⟩
  | some data =>
    if ¬ data.truthy then ⟨.ok (.arr []), false, none⟩
    else
      match pyGet data "linksets" with
      | .error e => ⟨.error e, false, none⟩
      | .ok linksets =>
        if ¬ linksets.truthy then ⟨.ok (.arr []), false, none⟩
        else
          let step : Except PyErr (Json × Json) := do
            let linksetsJ ← pySubscript data (.str "linksets")
            let linkset ← pySubscript linksetsJ (.num 0)
            let webenv ← pyGet linkset "webenv"
            let linksetdbs ← pySubscript linkset (.str "linksetdbs")
            let ldb0 ← pySubscript linksetdbs (.num 0)
            let query_key ← pyGet ldb0 "querykey"
            pure (query_key, webenv)
          match step with
          | .error e => ⟨.error e, false, none⟩
          | .ok qw => ⟨extract_idlist phase2, true, some qw⟩

end NCBIClient

/-- Parsed XML as `xml.etree.ElementTree` exposes it: elements with a
tag, attributes and an ordered mixed-content child list (character data
between tags appears as `text` children, which models ElementTree's
`.text`/`.tail` fields). -/
inductive XmlNode where
  | elem (tag : String) (attrs : List (String × String)) (children : List XmlNode)
  | text (s : String)

namespace Xml

/-- `"".join(node.itertext())`: all character data of the subtree in
document order. -/
def itertext : XmlNode → String
  | .text s => s
  | .elem _ _ cs => itertextList cs
where
  itertextList : List XmlNode → String
    | [] => ""
    | n :: rest => itertext n ++ itertextList rest

/-- All element nodes of the subtree, the root included, in document
order (the `descendant-or-self` step of an ElementTree `.//` path). -/
def subtreeElems : XmlNode → List XmlNode
  | .text _ => []
  | .elem t a cs => .elem t a cs :: subtreeList cs
where
  subtreeList : List XmlNode → List XmlNode
    | [] => []
    | n :: rest => subtreeElems n ++ subtreeList rest

/-- Child elements with the given tag (one ElementTree path step). -/
def childrenTag (tag : String) : XmlNode → List XmlNode
  | .text _ => []
  | .elem _ _ cs =>
    cs.filter (fun c => match c with
      | .elem t _ _ => t = tag
      | .text _ => false)

/-- `node.findall(".//" + "/".join(segs))`: a descendant-or-self step
followed by one child step per path segment. -/
def findall_dd (n : XmlNode) (segs : List String) : List XmlNode :=
  segs.foldl (fun acc seg => acc.flatMap (childrenTag seg)) (subtreeElems n)

/-- `node.get(attr)`: attribute lookup. -/
def attrGet (n : XmlNode) (k : String) : Option String :=
  match n with
  | .elem _ attrs _ => (attrs.find? (fun kv => kv.1 = k)).map (fun kv => kv.2)
  | .text _ => none

/-- ElementTree's `element.text`: the character data immediately after
the opening tag, `None` when the element starts with a child element or
is empty. -/
def textProp : XmlNode → Option String
  | .elem _ _ (.text s :: _) => some s
  | _ => none

/-- `node.findtext(".//" + path, default)`: `default` when no element
matches, the element's `.text` otherwise, the empty string when that
`.text` is `None`. -/
def findtext_dd (n : XmlNode) (segs : List String) (dflt : String) : String :=
  match (findall_dd n segs).head? with
  | some e => (textProp e).getD ""
  | none => dflt

/-- `node.findtext(".//" + path)` with no default: `None` when no
element matches. -/
def findtext_opt (n : XmlNode) (segs : List String) : Option String :=
  match (findall_dd n segs).head? with
  | some e => some ((textProp e).getD "")
  | none => none

/-- `a.findtext(tag, '')` for a plain child-axis path, as the author
loop uses. -/
def findtext_child (n : XmlNode) (tag : String) (dflt : String) : String :=
  match (childrenTag tag n).head? with
  | some e => (textProp e).getD ""
  | none => dflt

end Xml

/-- `schemas.Article` (the pydantic `HttpUrl` link is kept as its string
form; the synthesized URL always validates). -/
structure Article where
  pmid : String
  title : String
  pub_date : String
  journal : String
  authors : List String
  abstract : String
  mesh_terms : List String
  doi : Option String
  link : String
  volume : Option String
  issue : Option String
  pages : Option String
deriving DecidableEq, Repr

namespace NCBIClient

/-- The abstract-assembly loop of `fetch_article_details` (lines
185–197): per `AbstractText` node take the stripped `itertext`, skip it
when empty, prefix `**Label:** ` when the node carries a truthy `Label`
attribute, then join with blank lines, with a sentinel when nothing
survives. -/
def build_abstract (nodes : List XmlNode) : String :=
  let abstract_parts := nodes.foldl (fun acc node =>
    let full_text := Py.pyStrip (Xml.itertext node)
    if full_text = "" then acc
    else
      let part := match Xml.attrGet node "Label" with
        | some label =>
          if label ≠ "" then "**" ++ Py.pyStrip label ++ ":** " ++ full_text
          else full_text
        | none => full_text
      acc ++ [part]) []
  let abstract := String.intercalate "\n\n" abstract_parts
  if abstract = "" then "Abstract not available." else abstract

/-- What reaches the XML-processing part of `fetch_article_details`:
a falsy `_make_request` value, a payload `ElementTree.fromstring`
rejects (`ParseError`, caught), or the parsed document root. -/
inductive EfetchResult where
  | noData
  | parseFailure
  | parsed (root : XmlNode)

/-- `NCBIClient.fetch_article_details`, parameterised by the (parsed)
outcome of its `_make_request` call. -/
def fetch_article_details (pmid : String) (xml : EfetchResult) : Option Article :=
  match xml with
  | .noData => none
  | .parseFailure => none
  | .parsed root =>
    match (Xml.findall_dd root ["PubmedArticle"]).head? with
    | none => none
    | some article_node =>
      let title := match (Xml.findall_dd article_node ["ArticleTitle"]).head? with
        | some title_node => Py.pyStrip (Xml.itertext title_node)
        | none => "No Title Found"
      let authors := (Xml.findall_dd article_node ["AuthorList", "Author"]).map
        (fun a => Py.pyStrip (Xml.findtext_child a "LastName" "" ++ " " ++
          Xml.findtext_child a "Initials" ""))
      let journal := Xml.findtext_dd article_node ["Journal", "Title"] "N/A"
      let pub_date := Xml.findtext_dd article_node ["PubDate", "Year"] "N/A"
      let volume := Xml.findtext_opt article_node ["Journal", "JournalIssue", "Volume"]
      let issue := Xml.findtext_opt article_node ["Journal", "JournalIssue", "Issue"]
      let pages := Xml.findtext_opt article_node ["Pagination", "MedlinePgn"]
      let mesh_terms := (Xml.findall_dd article_node
          ["MeshHeadingList", "MeshHeading", "DescriptorName"]).filterMap
        (fun term => match Xml.textProp term with
          | some s => if s = "" then none else some s
          | none => none)
      let doi_node := ((Xml.findall_dd article_node ["ArticleIdList", "ArticleId"]).filter
        (fun e => Xml.attrGet e "IdType" = some "doi")).head?
      let doi := doi_node.bind Xml.textProp
      let abstract := build_abstract (Xml.findall_dd article_node ["Abstract", "AbstractText"])
      some
        { pmid := pmid
          title := Py.pyStrip title
          abstract := abstract
          authors := authors
          journal := journal
          pub_date := pub_date
          mesh_terms := mesh_terms
          doi := doi
          link := "https://pubmed.ncbi.nlm.nih.gov/" ++ pmid ++ "/"
          volume := volume
          issue := issue
          pages := pages }

end NCBIClient

namespace Schemas

/-- The `authors_str` local of `Article.to_ama_citation` (lines 26–32):
all authors joined when six or fewer, the first three plus `", et al"`
when more. -/
def ama_authors (a : Article) : String :=
  match a.authors with
  | [] => ""
  | _ :: _ =>
    if a.authors.length > 6 then
      String.intercalate ", " (a.authors.take 3) ++ ", et al"
    else
      String.intercalate ", " a.authors

/-- `Article.to_ama_citation`. -/
def to_ama_citation (a : Article) : String :=
  let authors_str := ama_authors a
  let title := Py.pyStrip (Py.removeChar a.title '*')
  let title := if ¬ Py.endsWithChar title '.' then title ++ "." else title
  let journal := if a.journal ≠ "" then "*" ++ Py.pyStrip a.journal ++ "*." else ""
  let year := if a.pub_date ≠ "" then a.pub_date ++ ";" else ""
  let cit_details :=
    (match a.volume with
      | some v => if v ≠ "" then v else ""
      | none => "")
    ++ (match a.issue with
      | some i => if i ≠ "" then "(" ++ i ++ ")" else ""
      | none => "")
    ++ (match a.pages with
      | some p => if p ≠ "" then ":" ++ p else ""
      | none => "")
  let cit_details := if cit_details ≠ "" then cit_details ++ "." else cit_details
  String.intercalate " "
    (([authors_str, title, journal, year, cit_details]).filter (fun part => part ≠ ""))

end Schemas

/-- The status test of line 81 of `client.py`. -/
def transientStatus (s : Nat) : Prop := s = 429 ∨ 500 ≤ s

/-- The declarative reading of the spec's "recognized bracketed field
tag" (the regex `\[[A-Za-z]{2,4}\]`): somewhere in the query an opening
bracket is followed by 2–4 ASCII letters and a closing bracket. -/
def FieldTagSpec (query : String) : Prop :=
  ∃ pre k post, query.data = pre ++ '[' :: (k ++ ']' :: post) ∧
    (∀ c ∈ k, c.isAlpha = true) ∧ 2 ≤ k.length ∧ k.length ≤ 4

/-- The spec's per-section rendering rule, read off §4.5: strip the
section's text, skip it when empty, and prefix `**Label:** ` when the
section carries a (truthy) label. -/
def render_section (node : XmlNode) : Option String :=
  let t := Py.pyStrip (Xml.itertext node)
  if t = "" then none
  else some (match Xml.attrGet node "Label" with
    | some label =>
      if label ≠ "" then "**" ++ Py.pyStrip label ++ ":** " ++ t else t
    | none => t)

/-- A looked-up record is benign when constructing it either succeeds
or fails with the (caught) `ValidationError` — i.e. it cannot raise one
of the exceptions `get_summaries` does not catch. -/
def recordBenign : Option Json → Bool
  | none => true
  | some info =>
    match NCBIClient.build_summary info with
    | .ok _ => true
    | .error .validationError => true
    | .error _ => false

/-! ## Supporting lemmas -/

/-- Sanity check of the embedded MD5 against the RFC 1321 test vector. -/
theorem md5_test_vector :
    MD5.hexdigest (Py.strUtf8 "abc") = "900150983cd24fb0d6963f7d28e17f72" := by
  set_option maxRecDepth 4096 in decide


/-- The order `sorted(d.items())` uses is antisymmetric. -/
theorem pairLe_antisymm (a b : String × String)
    (hab : PyJson.pairLe a b = true) (hba : PyJson.pairLe b a = true) : a = b := by
  have h1 := of_decide_eq_true hab
  have h2 := of_decide_eq_true hba
  rcases h1 with h1 | ⟨h1k, h1v⟩ <;> rcases h2 with h2 | ⟨h2k, h2v⟩
  · exact absurd h2 (lt_asymm h1)
  · exact absurd h1 (h2k ▸ lt_irrefl _)
  · exact absurd h2 (h1k ▸ lt_irrefl _)
  · exact Prod.ext h1k (le_antisymm h1v h2v)

/-- The order `sorted(d.items())` uses is transitive. -/
theorem pairLe_trans (a b c : String × String)
    (hab : PyJson.pairLe a b = true) (hbc : PyJson.pairLe b c = true) :
    PyJson.pairLe a c = true := by
  have h1 := of_decide_eq_true hab
  have h2 := of_decide_eq_true hbc
  apply decide_eq_true
  rcases h1 with h1 | ⟨h1k, h1v⟩ <;> rcases h2 with h2 | ⟨h2k, h2v⟩
  · exact Or.inl (lt_trans h1 h2)
  · exact Or.inl (h2k ▸ h1)
  · exact Or.inl (h1k ▸ h2)
  · exact Or.inr ⟨h1k.trans h2k, le_trans h1v h2v⟩

/-- The order `sorted(d.items())` uses is total. -/
theorem pairLe_total (a b : String × String) :
    PyJson.pairLe a b || PyJson.pairLe b a := by
  simp only [PyJson.pairLe, Bool.or_eq_true, decide_eq_true_eq]
  rcases lt_trichotomy a.1 b.1 with hk | hk | hk
  · exact Or.inl (Or.inl hk)
  · rcases le_total a.2 b.2 with hv | hv
    · exact Or.inl (Or.inr ⟨hk, hv⟩)
    · exact Or.inr (Or.inr ⟨hk.symm, hv⟩)
  · exact Or.inr (Or.inl hk)

instance : IsAntisymm (String × String) (fun a b => PyJson.pairLe a b = true) :=
  ⟨pairLe_antisymm⟩

instance : IsTrans (String × String) (fun a b => PyJson.pairLe a b = true) :=
  ⟨pairLe_trans⟩

instance : IsTotal (String × String) (fun a b => PyJson.pairLe a b = true) :=
  ⟨fun a b => by
    have := pairLe_total a b
    rcases Bool.or_eq_true_iff.mp this with h | h
    · exact Or.inl h
    · exact Or.inr h⟩

/-- Equal parameter dictionaries (in any insertion order) sort to the
same item list. -/
theorem sortedItems_perm {p q : List (String × String)} (h : p.Perm q) :
    PyJson.sortedItems p = PyJson.sortedItems q := by
  apply List.eq_of_perm_of_sorted (r := fun a b => PyJson.pairLe a b = true)
  · exact ((List.perm_insertionSort _ p).trans h).trans
      (List.perm_insertionSort _ q).symm
  · exact List.sorted_insertionSort _ p
  · exact List.sorted_insertionSort _ q

/-- An MD5 hex digest is 32 characters long. -/
theorem hexdigest_length (msg : List Nat) : (MD5.hexdigest msg).length = 32 := by
  simp [MD5.hexdigest, MD5.digest, MD5.le4, MD5.hexByte]

/-! ## Claim theorems -/

/-- Claim C3: `_generate_cache_key` is deterministic and order-invariant
over the parameter mapping — equal key/value pairs in any insertion
order give the identical key — the key always has the fixed length 45
(`"pubmed_cache:"` plus 32 hex digits), the function is pure (it is a
plain function of its arguments), and two inputs can only share a key
when the MD5 digests of their canonical serializations collide. -/
theorem claim_C3 :
    (∀ url (p q : List (String × String)), p.Perm q →
      NCBIClient.generate_cache_key url p = NCBIClient.generate_cache_key url q)
  ∧ (∀ url p, (NCBIClient.generate_cache_key url p).length = 45)
  ∧ (∀ u1 p1 u2 p2,
      MD5.hexdigest (Py.strUtf8 (NCBIClient.key_string u1 p1)) ≠
        MD5.hexdigest (Py.strUtf8 (NCBIClient.key_string u2 p2)) →
      NCBIClient.generate_cache_key u1 p1 ≠ NCBIClient.generate_cache_key u2 p2) := by
  refine ⟨?_, ?_, ?_⟩
  · intro url p q h
    unfold NCBIClient.generate_cache_key NCBIClient.key_string PyJson.dumpsSorted
    rw [sortedItems_perm h]
  · intro url p
    simp [NCBIClient.generate_cache_key, hexdigest_length]
    rfl
  · intro u1 p1 u2 p2 h hkey
    apply h
    unfold NCBIClient.generate_cache_key at hkey
    have := congrArg String.data hkey
    simp only [String.data_append] at this
    exact String.ext (List.append_cancel_left this)

/-- A prefix of transient-status failures followed by a success: the
retry loop returns the success value and sleeps `RETRY_DELAY ^ k`
before retrying attempt `k`, for each failing attempt `k`. -/
theorem attempt_loop_transient_prefix
    (outcomes : Nat → NCBIClient.AttemptOutcome) (v : Json) :
    ∀ (n attempt : Nat) (acc : List ℚ),
      attempt + n < NCBIClient.MAX_RETRIES →
      (∀ i, i < n → ∃ s, outcomes (attempt + i) = .httpError s ∧ transientStatus s) →
      outcomes (attempt + n) = .ok v →
      NCBIClient.attempt_loop outcomes attempt (NCBIClient.MAX_RETRIES - attempt) acc =
        ⟨.ok (some v),
         acc ++ (List.range n).map (fun k => NCBIClient.RETRY_DELAY ^ (attempt + k))⟩ := by
  intro n
  induction n with
  | zero =>
    intro attempt acc hlt _ hok
    obtain ⟨r, hr⟩ : ∃ r, NCBIClient.MAX_RETRIES - attempt = r + 1 :=
      ⟨NCBIClient.MAX_RETRIES - attempt - 1, by unfold NCBIClient.MAX_RETRIES at *; omega⟩
    rw [hr]
    simp only [NCBIClient.attempt_loop]
    rw [show attempt + 0 = attempt from rfl] at hok
    rw [hok]
    simp
  | succ n ih =>
    intro attempt acc hlt htrans hok
    obtain ⟨s, hs, hcond⟩ := htrans 0 (Nat.succ_pos n)
    rw [Nat.add_zero] at hs
    obtain ⟨r, hr⟩ : ∃ r, NCBIClient.MAX_RETRIES - attempt = r + 1 :=
      ⟨NCBIClient.MAX_RETRIES - attempt - 1, by unfold NCBIClient.MAX_RETRIES at *; omega⟩
    rw [hr]
    simp only [NCBIClient.attempt_loop, hs]
    rw [if_pos (show s = 429 ∨ 500 ≤ s from hcond),
      if_pos (show attempt < NCBIClient.MAX_RETRIES - 1 by
        unfold NCBIClient.MAX_RETRIES at *; omega)]
    have hr2 : r = NCBIClient.MAX_RETRIES - (attempt + 1) := by
      unfold NCBIClient.MAX_RETRIES at *; omega
    rw [hr2]
    rw [ih (attempt + 1) (acc ++ [NCBIClient.RETRY_DELAY ^ attempt])
      (by omega)
      (fun i hi => by
        obtain ⟨t, ht, htc⟩ := htrans (i + 1) (by omega)
        exact ⟨t, by rw [show attempt + 1 + i = attempt + (i + 1) by omega]; exact ht, htc⟩)
      (by rw [show attempt + 1 + n = attempt + (n + 1) by omega]; exact hok)]
    rw [List.range_succ_eq_map]
    simp only [List.map_cons, List.map_map, pow_zero, List.append_assoc,
      List.singleton_append, Nat.add_zero]
    have hm : List.map ((fun k => NCBIClient.RETRY_DELAY ^ (attempt + k)) ∘ Nat.succ)
        (List.range n) =
        List.map (fun k => NCBIClient.RETRY_DELAY ^ (attempt + 1 + k)) (List.range n) := by
      apply List.map_congr_left
      intro k _
      simp only [Function.comp_apply]
      congr 1
      omega
    rw [hm]

/-- Four transient-status failures exhaust the loop: the failure signal
is returned after the three sleeps `1, 2, 4` (no sleep follows the last
attempt). -/
theorem attempt_loop_all_transient
    (outcomes : Nat → NCBIClient.AttemptOutcome)
    (h : ∀ i, i < NCBIClient.MAX_RETRIES →
      ∃ s, outcomes i = .httpError s ∧ transientStatus s) :
    NCBIClient.attempt_loop outcomes 0 NCBIClient.MAX_RETRIES [] =
      ⟨.ok none, [1, 2, 4]⟩ := by
  obtain ⟨s0, h0, c0⟩ := h 0 (by norm_num [NCBIClient.MAX_RETRIES])
  obtain ⟨s1, h1, c1⟩ := h 1 (by norm_num [NCBIClient.MAX_RETRIES])
  obtain ⟨s2, h2, c2⟩ := h 2 (by norm_num [NCBIClient.MAX_RETRIES])
  obtain ⟨s3, h3, c3⟩ := h 3 (by norm_num [NCBIClient.MAX_RETRIES])
  show NCBIClient.attempt_loop outcomes 0 (3 + 1) [] = _
  simp only [NCBIClient.attempt_loop, h0]
  rw [if_pos (show s0 = 429 ∨ 500 ≤ s0 from c0)]
  norm_num [NCBIClient.MAX_RETRIES]
  simp only [NCBIClient.attempt_loop, h1]
  rw [if_pos (show s1 = 429 ∨ 500 ≤ s1 from c1)]
  simp only [NCBIClient.attempt_loop, h2]
  rw [if_pos (show s2 = 429 ∨ 500 ≤ s2 from c2)]
  simp only [NCBIClient.attempt_loop, h3]
  norm_num [NCBIClient.RETRY_DELAY]

/-- Claim C1 counterexample: with one 429 response followed by a 200,
`_make_request` performs exactly one backoff delay, but that delay is
`RETRY_DELAY ** 0 = 1` second — not `base delay × 2^0 = 2` seconds as
the claim's formula demands (the code computes `RETRY_DELAY ** attempt`,
not `RETRY_DELAY * 2 ** attempt`). -/
theorem claim_C1_counterexample :
    (NCBIClient.make_request none
      "https://eutils.ncbi.nlm.nih.gov/entrez/eutils/esearch.fcgi"
      [("db", "pubmed")] .miss
      (fun i => if i = 0 then .httpError 429 else .ok (.str "ok"))).delays = [1]
  ∧ (1 : ℚ) ≠ NCBIClient.RETRY_DELAY * 2 ^ (0 : Nat) := by
  refine ⟨rfl, ?_⟩
  norm_num [NCBIClient.RETRY_DELAY]

/-- Claim C1 (amended): transient means HTTP status 429 or ≥ 500 (a
transport-level `ClientError` is treated as unrecoverable, line 87‑89).
For `n ≤ MAX_RETRIES - 1` transient-status failures followed by a 200,
`_make_request` returns the 200's decoded result after exactly `n`
backoff delays, the delay before retrying attempt `k` being
`RETRY_DELAY ^ k` seconds (1, 2, 4); when every attempt fails with a
transient status it returns the failure signal after
`MAX_RETRIES - 1 = 3` delays; a single non-transient HTTP error status
(e.g. 404) or a transport-level error returns the failure signal with
zero delays, and no later attempt's outcome is consulted. -/
theorem claim_C1 :
    (∀ url params (outcomes : Nat → NCBIClient.AttemptOutcome) (n : Nat) (v : Json),
      n ≤ NCBIClient.MAX_RETRIES - 1 →
      (∀ i, i < n → ∃ s, outcomes i = .httpError s ∧ transientStatus s) →
      outcomes n = .ok v →
      (NCBIClient.make_request none url params .miss outcomes).result = .ok (some v) ∧
      (NCBIClient.make_request none url params .miss outcomes).delays =
        (List.range n).map (fun k => NCBIClient.RETRY_DELAY ^ k))
  ∧ (∀ url params (outcomes : Nat → NCBIClient.AttemptOutcome),
      (∀ i, i < NCBIClient.MAX_RETRIES → ∃ s, outcomes i = .httpError s ∧ transientStatus s) →
      (NCBIClient.make_request none url params .miss outcomes).result = .ok none ∧
      (NCBIClient.make_request none url params .miss outcomes).delays = [1, 2, 4])
  ∧ (∀ url params (outcomes : Nat → NCBIClient.AttemptOutcome) (s : Nat),
      outcomes 0 = .httpError s → ¬ transientStatus s →
      (NCBIClient.make_request none url params .miss outcomes).result = .ok none ∧
      (NCBIClient.make_request none url params .miss outcomes).delays = [])
  ∧ (∀ url params (outcomes : Nat → NCBIClient.AttemptOutcome),
      outcomes 0 = .transportError →
      (NCBIClient.make_request none url params .miss outcomes).result = .ok none ∧
      (NCBIClient.make_request none url params .miss outcomes).delays = []) := by
  have hmr : ∀ url params (outcomes : Nat → NCBIClient.AttemptOutcome),
      NCBIClient.make_request none url params .miss outcomes =
      ⟨params, NCBIClient.generate_cache_key url params,
       (NCBIClient.attempt_loop outcomes 0 NCBIClient.MAX_RETRIES []).result,
       (NCBIClient.attempt_loop outcomes 0 NCBIClient.MAX_RETRIES []).delays⟩ :=
    fun _ _ _ => rfl
  refine ⟨?_, ?_, ?_, ?_⟩
  · intro url params outcomes n v hn htrans hok
    have h := attempt_loop_transient_prefix outcomes v n 0 []
      (by unfold NCBIClient.MAX_RETRIES at *; omega)
      (fun i hi => by simpa using htrans i hi)
      (by simpa using hok)
    rw [Nat.sub_zero] at h
    rw [hmr, h]
    constructor
    · rfl
    · simp
  · intro url params outcomes h
    rw [hmr, attempt_loop_all_transient outcomes h]
    exact ⟨by trivial, by trivial⟩
  · intro url params outcomes s h0 hns
    rw [hmr]
    show (NCBIClient.attempt_loop outcomes 0 (3 + 1) []).result = _ ∧
      (NCBIClient.attempt_loop outcomes 0 (3 + 1) []).delays = _
    simp only [NCBIClient.attempt_loop, h0]
    rw [if_neg (show ¬ (s = 429 ∨ 500 ≤ s) from hns)]
    exact ⟨by trivial, by trivial⟩
  · intro url params outcomes h0
    rw [hmr]
    show (NCBIClient.attempt_loop outcomes 0 (3 + 1) []).result = _ ∧
      (NCBIClient.attempt_loop outcomes 0 (3 + 1) []).delays = _
    simp only [NCBIClient.attempt_loop, h0]
    exact ⟨by trivial, by trivial⟩

/-- Witness for C1: two transient failures (429 then 503) followed by a
200 yield the 200's value after the two delays 1 and 2; a single 404
yields the failure signal with no delay. -/
theorem claim_C1_witness :
    ((NCBIClient.make_request none "u" [] .miss
        (fun i => if i < 2 then .httpError (if i = 0 then 429 else 503)
                  else .ok (.str "ok"))).result = .ok (some (.str "ok"))
      ∧ (NCBIClient.make_request none "u" [] .miss
        (fun i => if i < 2 then .httpError (if i = 0 then 429 else 503)
                  else .ok (.str "ok"))).delays =
          (List.range 2).map (fun k => NCBIClient.RETRY_DELAY ^ k))
  ∧ ((NCBIClient.make_request none "u" [] .miss
        (fun i => if i = 0 then .httpError 404 else .ok .null)).result = .ok none
      ∧ (NCBIClient.make_request none "u" [] .miss
        (fun i => if i = 0 then .httpError 404 else .ok .null)).delays = []) :=
  ⟨claim_C1.1 "u" [] _ 2 (.str "ok") (by norm_num [NCBIClient.MAX_RETRIES])
      (fun i hi => by
        interval_cases i
        · exact ⟨429, rfl, Or.inl rfl⟩
        · exact ⟨503, rfl, Or.inr (by norm_num)⟩)
      rfl,
   claim_C1.2.2.1 "u" [] _ 404 rfl
      (by intro h; rcases h with h | h <;> omega)⟩

/-- Claim C2 (code bug in the source): `_make_request` catches only
`aiohttp.ClientError` (and `RedisError` around the cache), so an
`asyncio.TimeoutError` from the 30-second total timeout, and a
`json.JSONDecodeError` from a corrupted cached payload, propagate to the
caller instead of being turned into a returned value. -/
theorem claim_C2_exception_escapes :
    (NCBIClient.make_request none
      "https://eutils.ncbi.nlm.nih.gov/entrez/eutils/esearch.fcgi"
      [("db", "pubmed")] .noRedis (fun _ => .timeout)).result =
        .error .timeoutError
  ∧ (NCBIClient.make_request none
      "https://eutils.ncbi.nlm.nih.gov/entrez/eutils/esearch.fcgi"
      [("db", "pubmed")] .hitMalformed (fun _ => .ok .null)).result =
        .error .jsonDecodeError :=
  ⟨rfl, rfl⟩

/-- A fresh key insertion grows a Python dict by one entry. -/
theorem dictInsert_length_fresh (params : List (String × String)) (k v : String)
    (h : k ∉ params.map Prod.fst) :
    (NCBIClient.dictInsert params k v).length = params.length + 1 := by
  induction params with
  | nil => rfl
  | cons kv rest ih =>
    simp only [List.map_cons, List.mem_cons, not_or] at h
    simp only [NCBIClient.dictInsert, if_neg (Ne.symm h.1), List.length_cons, ih h.2]

/-- Claim C10: when an API credential is configured, `_make_request`
writes `params["api_key"]` into the caller's dict before the cache key
is computed — the dict genuinely changes whenever `api_key` was not
already a key (the five gateway operations never pass one), and the
cache key is computed from the credential-injected dict; with no
credential the caller's dict is left unchanged. -/
theorem claim_C10 :
    (∀ k url params cache (outcomes : Nat → NCBIClient.AttemptOutcome),
      (NCBIClient.make_request (some k) url params cache outcomes).params_after =
        NCBIClient.dictInsert params "api_key" k
      ∧ (NCBIClient.make_request (some k) url params cache outcomes).cache_key =
        NCBIClient.generate_cache_key url (NCBIClient.dictInsert params "api_key" k))
  ∧ (∀ k url params cache (outcomes : Nat → NCBIClient.AttemptOutcome),
      "api_key" ∉ params.map Prod.fst →
      (NCBIClient.make_request (some k) url params cache outcomes).params_after ≠ params)
  ∧ (∀ url params cache (outcomes : Nat → NCBIClient.AttemptOutcome),
      (NCBIClient.make_request none url params cache outcomes).params_after = params) := by
  refine ⟨?_, ?_, ?_⟩
  · intro k url params cache outcomes
    cases cache <;> exact ⟨rfl, rfl⟩
  · intro k url params cache outcomes h heq
    have hlen := dictInsert_length_fresh params "api_key" k h
    have hpa : (NCBIClient.make_request (some k) url params cache outcomes).params_after =
        NCBIClient.dictInsert params "api_key" k := by
      cases cache <;> rfl
    rw [hpa] at heq
    rw [heq] at hlen
    omega
  · intro url params cache outcomes
    cases cache <;> rfl

/-- Correctness of the letter scanner against the declarative reading. -/
theorem tagLetters_iff : ∀ (l : List Char) (n : Nat), n ≤ 4 →
    (NCBIClient.tagLetters l n = true ↔
      ∃ k post, l = k ++ ']' :: post ∧ (∀ c ∈ k, c.isAlpha = true) ∧
        2 ≤ n + k.length ∧ n + k.length ≤ 4) := by
  intro l
  induction l with
  | nil =>
    intro n hn
    constructor
    · intro h
      simp [NCBIClient.tagLetters] at h
    · rintro ⟨k, post, h, -, -⟩
      exact absurd h.symm (by simp)
  | cons c rest ih =>
    intro n hn
    by_cases hc : c = ']'
    · subst hc
      rw [show NCBIClient.tagLetters (']' :: rest) n =
        (decide (2 ≤ n) && decide (n ≤ 4)) by simp [NCBIClient.tagLetters]]
      constructor
      · intro h
        simp only [Bool.and_eq_true, decide_eq_true_eq] at h
        exact ⟨[], rest, rfl, by simp, by simpa using h.1, by simpa using h.2⟩
      · rintro ⟨k, post, heq, halpha, h2, h4⟩
        cases k with
        | nil =>
          simp only [List.nil_append, List.length_nil, Nat.add_zero] at h2 h4
          simp [h2, h4]
        | cons k0 ks =>
          have hk0 : k0 = ']' := by
            simpa using (congrArg (fun t => t.head?) heq).symm
          have halpha0 : (']' : Char).isAlpha = true := hk0 ▸ halpha k0 (by simp)
          simp at halpha0
    · rw [show NCBIClient.tagLetters (c :: rest) n =
        (if c.isAlpha && decide (n < 4) then NCBIClient.tagLetters rest (n + 1)
         else false) by simp [NCBIClient.tagLetters, hc]]
      by_cases ha : c.isAlpha = true ∧ n < 4
      · rw [if_pos (by simp [ha.1, ha.2])]
        rw [ih (n + 1) (by omega)]
        constructor
        · rintro ⟨k, post, heq, halpha, h2, h4⟩
          refine ⟨c :: k, post, by simp [heq], ?_, by simp; omega, by simp; omega⟩
          intro d hd
          rcases List.mem_cons.mp hd with h | h
          · exact h ▸ ha.1
          · exact halpha d h
        · rintro ⟨k, post, heq, halpha, h2, h4⟩
          cases k with
          | nil =>
            exfalso
            apply hc
            simpa using congrArg (fun t => t.head?) heq
          | cons k0 ks =>
            have hk0 : k0 = c := by
              simpa using (congrArg (fun t => t.head?) heq).symm
            have htail : rest = ks ++ ']' :: post := by
              simpa using (congrArg (fun t => t.tail) heq)
            refine ⟨ks, post, htail, fun d hd => halpha d (by simp [hd]),
              by simp at h2 ⊢; omega, by simp at h4 ⊢; omega⟩
      · rw [if_neg (by
          intro hcontra
          simp only [Bool.and_eq_true, decide_eq_true_eq] at hcontra
          exact ha hcontra)]
        constructor
        · intro h; cases h
        · rintro ⟨k, post, heq, halpha, h2, h4⟩
          exfalso
          apply ha
          cases k with
          | nil =>
            exfalso
            apply hc
            simpa using congrArg (fun t => t.head?) heq
          | cons k0 ks =>
            have hk0 : k0 = c := by
              simpa using (congrArg (fun t => t.head?) heq).symm
            constructor
            · exact hk0 ▸ halpha k0 (by simp)
            · simp at h4; omega

/-- Correctness of the position scanner. -/
theorem tagAt_iff (l : List Char) :
    NCBIClient.tagAt l = true ↔
      ∃ k post, l = '[' :: (k ++ ']' :: post) ∧ (∀ c ∈ k, c.isAlpha = true) ∧
        2 ≤ k.length ∧ k.length ≤ 4 := by
  cases l with
  | nil =>
    constructor
    · intro h; simp [NCBIClient.tagAt] at h
    · rintro ⟨k, post, h, -⟩; cases h
  | cons c rest =>
    by_cases hc : c = '['
    · subst hc
      rw [show NCBIClient.tagAt ('[' :: rest) = NCBIClient.tagLetters rest 0 by
        simp [NCBIClient.tagAt]]
      rw [tagLetters_iff rest 0 (by omega)]
      constructor
      · rintro ⟨k, post, heq, ha, h2, h4⟩
        exact ⟨k, post, by rw [heq], ha, by omega, by omega⟩
      · rintro ⟨k, post, heq, ha, h2, h4⟩
        injection heq with _ h
        exact ⟨k, post, h, ha, by omega, by omega⟩
    · rw [show NCBIClient.tagAt (c :: rest) = false by simp [NCBIClient.tagAt, hc]]
      constructor
      · intro h; cases h
      · rintro ⟨k, post, heq, -⟩
        injection heq with h1 _
        exact absurd h1 hc

/-- Correctness of the whole-string scanner against the declarative
reading of the regex. -/
theorem hasFieldTag_iff (q : String) :
    NCBIClient.hasFieldTag q = true ↔ FieldTagSpec q := by
  unfold NCBIClient.hasFieldTag FieldTagSpec
  generalize q.data = l
  induction l with
  | nil =>
    constructor
    · intro h; simp [NCBIClient.hasTagFrom] at h
    · rintro ⟨pre, k, post, h, -⟩
      exact absurd h.symm (by simp)
  | cons c rest ih =>
    constructor
    · intro h
      rcases Bool.or_eq_true_iff.mp (by simpa [NCBIClient.hasTagFrom] using h) with h | h
      · obtain ⟨k, post, heq, ha, h2, h4⟩ := (tagAt_iff (c :: rest)).mp h
        exact ⟨[], k, post, by simpa using heq, ha, h2, h4⟩
      · obtain ⟨pre, k, post, heq, ha, h2, h4⟩ := ih.mp h
        exact ⟨c :: pre, k, post, by simp [heq], ha, h2, h4⟩
    · rintro ⟨pre, k, post, heq, ha, h2, h4⟩
      show NCBIClient.hasTagFrom (c :: rest) = true
      rw [NCBIClient.hasTagFrom]
      cases pre with
      | nil =>
        apply Bool.or_eq_true_iff.mpr
        left
        apply (tagAt_iff (c :: rest)).mpr
        simp only [List.nil_append] at heq
        injection heq with h1 h2tail
        exact ⟨k, post, by rw [h1, h2tail], ha, h2, h4⟩
      | cons p ps =>
        apply Bool.or_eq_true_iff.mpr
        right
        injection heq with _ h2tail
        exact ih.mpr ⟨ps, k, post, h2tail, ha, h2, h4⟩

/-- Claim C8: if a non-empty field is given and the query does not
already embed a recognized bracketed field tag (2–4 ASCII letters in
square brackets), the term `search_pubmed_ids` sends upstream is
`(query)field`; otherwise the query passes through unchanged.
Concretely, `"cancer"` with field `"[AU]"` yields `"(cancer)[AU]"`, and
a query containing `"[TI]"` is not wrapped. -/
theorem claim_C8 :
    (∀ query f, f ≠ "" → ¬ FieldTagSpec query →
      NCBIClient.search_term query (some f) = "(" ++ query ++ ")" ++ f)
  ∧ (∀ query f, FieldTagSpec query →
      NCBIClient.search_term query (some f) = query)
  ∧ (∀ query, NCBIClient.search_term query none = query)
  ∧ NCBIClient.search_term "cancer" (some "[AU]") = "(cancer)[AU]"
  ∧ NCBIClient.search_term "foo[TI] bar" (some "[AU]") = "foo[TI] bar"
  ∧ (∀ query f max_results sd ed resp,
      (NCBIClient.search_pubmed_ids query f max_results sd ed resp).term =
        NCBIClient.search_term query f) := by
  refine ⟨?_, ?_, fun _ => rfl, by decide, by decide, fun _ _ _ _ _ _ => rfl⟩
  · intro query f hf hno
    simp only [NCBIClient.search_term]
    rw [if_pos ⟨hf, fun h => hno ((hasFieldTag_iff query).mp h)⟩]
  · intro query f hyes
    simp only [NCBIClient.search_term]
    by_cases hf : f = ""
    · rw [if_neg (by simp [hf])]
    · rw [if_neg (by
        rintro ⟨-, hno⟩
        exact hno ((hasFieldTag_iff query).mpr hyes))]

/-- Witness for C8: the wrap rule applied at the claim's concrete
inputs. -/
theorem claim_C8_witness :
    NCBIClient.search_term "cancer" (some "[AU]") = "(cancer)[AU]"
  ∧ NCBIClient.search_term "foo[TI] bar" (some "[AU]") = "foo[TI] bar" :=
  ⟨claim_C8.1 "cancer" "[AU]" (by decide)
      (fun h => by
        have := (hasFieldTag_iff "cancer").mpr h
        simp only at this
        exact absurd this (by decide)),
   claim_C8.2.1 "foo[TI] bar" "[AU]"
      ((hasFieldTag_iff "foo[TI] bar").mp (by decide))⟩

/-- Witness for C10: with a configured credential, a concrete call on
`{"db": "pubmed"}` leaves the dict changed. -/
theorem claim_C10_witness :
    (NCBIClient.make_request (some "SECRET") "u" [("db", "pubmed")] .miss
      (fun _ => .ok .null)).params_after ≠ [("db", "pubmed")] :=
  claim_C10.2.1 "SECRET" "u" [("db", "pubmed")] .miss (fun _ => .ok .null) (by decide)

/-- Claim C4 counterexample: a phase-1 response whose (truthy) linkset
list contains a linkset without a `linksetdbs` key makes
`find_related_ids` raise `KeyError` at `linkset["linksetdbs"]` (line
150) — it does not yield the empty list. -/
theorem claim_C4_counterexample :
    (NCBIClient.find_related_ids
        (some (Json.obj [("linksets", Json.arr [Json.obj []])])) none).ids =
      .error .keyError
  ∧ (NCBIClient.find_related_ids
        (some (Json.obj [("linksets", Json.arr [Json.obj []])])) none).phase2Called = false
  ∧ (Except.error PyErr.keyError : Except PyErr Json) ≠ .ok (.arr []) :=
  ⟨rfl, rfl, by simp⟩

/-- Claim C4 (amended): `find_related_ids` returns the empty list
without issuing the phase-2 request whenever the phase-1 result is
falsy, or its `linksets` entry is missing or falsy (in particular an
empty linkset list).  A linkset lacking `linksetdbs` instead raises
`KeyError` (see the counterexample), and a missing `webenv`/`querykey`
does not short-circuit: phase 2 is still issued, carrying null values. -/
theorem claim_C4 :
    (∀ phase2, NCBIClient.find_related_ids none phase2 =
      ⟨.ok (.arr []), false, none⟩)
  ∧ (∀ d phase2, d.truthy = false →
      NCBIClient.find_related_ids (some d) phase2 = ⟨.ok (.arr []), false, none⟩)
  ∧ (∀ kvs phase2,
      (jsonLookup kvs "linksets" = none ∨
        ∃ v, jsonLookup kvs "linksets" = some v ∧ v.truthy = false) →
      NCBIClient.find_related_ids (some (.obj kvs)) phase2 =
        ⟨.ok (.arr []), false, none⟩)
  ∧ (∀ (ls : List (String × Json)) phase2,
      jsonLookup ls "linksetdbs" = none →
      jsonLookup ls "webenv" = none →
      (NCBIClient.find_related_ids
        (some (.obj [("linksets", .arr [.obj ls])])) phase2).ids =
          .error .keyError) := by
  refine ⟨fun _ => rfl, ?_, ?_, ?_⟩
  · intro d phase2 h
    simp [NCBIClient.find_related_ids, h]
  · intro kvs phase2 h
    cases kvs with
    | nil =>
      simp [NCBIClient.find_related_ids, Json.truthy]
    | cons kv rest =>
      have htr : (Json.obj (kv :: rest)).truthy = true := rfl
      simp only [NCBIClient.find_related_ids, htr, Bool.not_true,
        Bool.false_eq_true, if_false, pyGet]
      rcases h with h | ⟨v, hv, hvf⟩
      · rw [h]
        rfl
      · rw [hv]
        simp only [Option.getD_some]
        simp [hvf]
  · intro ls phase2 hdbs hweb
    have h1 : jsonLookup [("linksets", Json.arr [Json.obj ls])] "linksets" =
        some (Json.arr [Json.obj ls]) := rfl
    simp [NCBIClient.find_related_ids, pySubscript, pyGet, Json.truthy, h1, hdbs, hweb,
      bind, Except.bind, Functor.map, Except.map]

/-- Witness for C4: the empty phase-1 linkset list and a falsy phase-1
payload both yield the empty list with no phase-2 call. -/
theorem claim_C4_witness :
    NCBIClient.find_related_ids (some (.obj [("linksets", .arr [])])) none =
      ⟨.ok (.arr []), false, none⟩
  ∧ NCBIClient.find_related_ids (some (.obj [])) none =
      ⟨.ok (.arr []), false, none⟩ :=
  ⟨claim_C4.2.2.1 [("linksets", .arr [])] none (Or.inr ⟨.arr [], rfl, rfl⟩),
   claim_C4.2.1 (.obj []) none rfl⟩

/-- The imperative accumulation of `fetch_article_details`'s abstract
loop computes exactly the `filterMap` of the per-section rule. -/
theorem build_abstract_foldl (nodes : List XmlNode) :
    ∀ acc : List String,
      nodes.foldl (fun acc node =>
        let full_text := Py.pyStrip (Xml.itertext node)
        if full_text = "" then acc
        else
          let part := match Xml.attrGet node "Label" with
            | some label =>
              if label ≠ "" then "**" ++ Py.pyStrip label ++ ":** " ++ full_text
              else full_text
            | none => full_text
          acc ++ [part]) acc
      = acc ++ nodes.filterMap render_section := by
  induction nodes with
  | nil => intro acc; simp
  | cons node rest ih =>
    intro acc
    simp only [List.foldl_cons, List.filterMap_cons]
    by_cases ht : Py.pyStrip (Xml.itertext node) = ""
    · simp only [ht, if_pos rfl, render_section, if_pos ht]
      exact ih acc
    · simp only [render_section, if_neg ht, ih]
      simp [List.append_assoc]

/-- The accumulator of `String.intercalate` only grows. -/
theorem intercalate_go_length (s : String) :
    ∀ (as : List String) (acc : String),
      acc.length ≤ (String.intercalate.go acc s as).length := by
  intro as
  induction as with
  | nil => intro acc; exact le_refl _
  | cons a rest ih =>
    intro acc
    calc acc.length ≤ (acc ++ s ++ a).length := by
          simp only [String.length_append]
          omega
    _ ≤ _ := ih (acc ++ s ++ a)

/-- Joining a non-empty list headed by a non-empty string is non-empty. -/
theorem intercalate_ne_empty (s p : String) (parts : List String) (hp : p ≠ "") :
    String.intercalate s (p :: parts) ≠ "" := by
  intro h
  have hlen := intercalate_go_length s parts p
  have hgo : String.intercalate.go p s parts = "" := h
  rw [hgo] at hlen
  apply hp
  have hdata : p.data = [] := List.length_eq_zero.mp (by simpa using hlen)
  exact congrArg String.mk hdata

/-- A rendered section is never the empty string. -/
theorem render_section_ne_empty (node : XmlNode) (part : String)
    (h : render_section node = some part) : part ≠ "" := by
  unfold render_section at h
  by_cases ht : Py.pyStrip (Xml.itertext node) = ""
  · simp [ht] at h
  · simp only [if_neg ht, Option.some.injEq] at h
    rcases hl : Xml.attrGet node "Label" with _ | label
    · simp only [hl] at h
      exact h ▸ ht
    · simp only [hl] at h
      by_cases hlab : label ≠ ""
      · rw [if_pos hlab] at h
        intro hcontra
        rw [← h] at hcontra
        have hlen := congrArg String.length hcontra
        simp only [String.length_append] at hlen
        have h2 : "**".length = 2 := rfl
        have h3 : "".length = 0 := rfl
        omega
      · rw [if_neg hlab] at h
        exact h ▸ ht

/-- Claim C5 counterexample: the sentinel the code uses is
`"Abstract not available."` with a capital A, not the claim's
`"abstract not available."`. -/
theorem claim_C5_counterexample :
    NCBIClient.build_abstract [] = "Abstract not available."
  ∧ "Abstract not available." ≠ "abstract not available." :=
  ⟨rfl, by decide⟩

/-- Claim C5 (amended): the parsed abstract is the blank-line join of
the per-section renderings in document order — a section with a truthy
`Label` renders as `**Label:** text`, a section whose stripped text is
empty is skipped — and when no section survives the sentinel is
`"Abstract not available."` (capital A).  The claim's concrete example
holds: a labeled "Methods" section "We did X" followed by an unlabeled
"Y" yields `"**Methods:** We did X\n\nY"`. -/
theorem claim_C5 :
    (∀ nodes : List XmlNode,
      NCBIClient.build_abstract nodes =
        (if nodes.filterMap render_section = [] then "Abstract not available."
         else String.intercalate "\n\n" (nodes.filterMap render_section)))
  ∧ NCBIClient.build_abstract
      [XmlNode.elem "AbstractText" [("Label", "Methods")] [XmlNode.text "We did X"],
       XmlNode.elem "AbstractText" [] [XmlNode.text "Y"]] =
      "**Methods:** We did X\n\nY" := by
  constructor
  · intro nodes
    unfold NCBIClient.build_abstract
    rw [build_abstract_foldl nodes []]
    simp only [List.nil_append]
    cases hfm : nodes.filterMap render_section with
    | nil => rfl
    | cons p rest =>
      rw [if_neg (show ¬ (p :: rest = ([] : List String)) by simp)]
      have hp : p ≠ "" := by
        have hmem : p ∈ nodes.filterMap render_section := by
          rw [hfm]
          exact List.mem_cons_self p rest
        obtain ⟨node, -, hnode⟩ := List.mem_filterMap.mp hmem
        exact render_section_ne_empty node p hnode
      rw [if_neg (intercalate_ne_empty "\n\n" p rest hp)]
  · rfl

/-- Claim C6 counterexample: at the claim's concrete inputs the code
produces `"A, B, C, et al Foo. *J*. 2020; 5(2):10-20."` — with a space
between `"2020;"` and `"5(2)"`, because `to_ama_citation` joins all
non-empty parts with single spaces — not the claim's
`"...2020;5(2):10-20."`. -/
theorem claim_C6_counterexample :
    Schemas.to_ama_citation
      ⟨"1", "Foo", "2020", "J", ["A", "B", "C", "D", "E", "F", "G"], "abs", [],
        none, "https://pubmed.ncbi.nlm.nih.gov/1/", some "5", some "2", some "10-20"⟩ =
      "A, B, C, et al Foo. *J*. 2020; 5(2):10-20."
  ∧ "A, B, C, et al Foo. *J*. 2020; 5(2):10-20." ≠
      "A, B, C, et al Foo. *J*. 2020;5(2):10-20." :=
  ⟨rfl, by decide⟩

/-- Claim C6 (amended): with six or fewer authors `to_ama_citation`
joins them all with `", "`; with more than six it joins the first three
and appends `", et al"`; at the claim's concrete inputs the citation is
`"A, B, C, et al Foo. *J*. 2020; 5(2):10-20."` (the parts are joined
with single spaces, so a space follows `"2020;"`). -/
theorem claim_C6 :
    (∀ a : Article, a.authors.length ≤ 6 →
      Schemas.ama_authors a = String.intercalate ", " a.authors)
  ∧ (∀ a : Article, a.authors.length > 6 →
      Schemas.ama_authors a =
        String.intercalate ", " (a.authors.take 3) ++ ", et al")
  ∧ Schemas.to_ama_citation
      ⟨"1", "Foo", "2020", "J", ["A", "B", "C", "D", "E", "F", "G"], "abs", [],
        none, "https://pubmed.ncbi.nlm.nih.gov/1/", some "5", some "2", some "10-20"⟩ =
      "A, B, C, et al Foo. *J*. 2020; 5(2):10-20." := by
  refine ⟨?_, ?_, rfl⟩
  · intro a h
    cases ha : a.authors with
    | nil =>
      simp only [Schemas.ama_authors, ha]
      rfl
    | cons b rest =>
      rw [ha] at h
      simp only [Schemas.ama_authors, ha]
      rw [if_neg (by omega)]
  · intro a h
    cases ha : a.authors with
    | nil => rw [ha] at h; simp at h
    | cons b rest =>
      rw [ha] at h
      simp only [Schemas.ama_authors, ha]
      rw [if_pos (by omega)]

/-- Witness for C6: the author rule applied to a seven-author and a
two-author article. -/
theorem claim_C6_witness :
    Schemas.ama_authors
      ⟨"1", "Foo", "2020", "J", ["A", "B", "C", "D", "E", "F", "G"], "abs", [],
        none, "https://pubmed.ncbi.nlm.nih.gov/1/", some "5", some "2", some "10-20"⟩ =
        String.intercalate ", "
          ((["A", "B", "C", "D", "E", "F", "G"] : List String).take 3) ++ ", et al"
  ∧ Schemas.ama_authors
      ⟨"2", "T", "2021", "J", ["A", "B"], "abs", [], none,
        "https://pubmed.ncbi.nlm.nih.gov/2/", none, none, none⟩ =
        String.intercalate ", " ["A", "B"] :=
  ⟨claim_C6.2.1 _ (by decide), claim_C6.1 _ (by decide)⟩

/-- Claim C9: every `Article` that `fetch_article_details` returns has
its `link` synthesized from the requested id as
`https://pubmed.ncbi.nlm.nih.gov/<id>/`, whatever the upstream XML
contains — the link is never read from the document. -/
theorem claim_C9 (pmid : String) (xml : NCBIClient.EfetchResult) (art : Article)
    (h : NCBIClient.fetch_article_details pmid xml = some art) :
    art.link = "https://pubmed.ncbi.nlm.nih.gov/" ++ pmid ++ "/" := by
  cases xml with
  | noData => exact absurd h (by simp [NCBIClient.fetch_article_details])
  | parseFailure => exact absurd h (by simp [NCBIClient.fetch_article_details])
  | parsed root =>
    unfold NCBIClient.fetch_article_details at h
    cases hh : (Xml.findall_dd root ["PubmedArticle"]).head? with
    | none =>
      simp only [hh] at h
      exact absurd h (by simp)
    | some article_node =>
      simp only [hh, Option.some.injEq] at h
      rw [← h]

/-- Witness for C9: a minimal parsed document containing one bare
`PubmedArticle` node yields an article whose link is synthesized from
the id `12345`. -/
theorem claim_C9_witness :
    (⟨"12345", "No Title Found", "N/A", "N/A", [], "Abstract not available.",
      [], none, "https://pubmed.ncbi.nlm.nih.gov/12345/", none, none, none⟩ :
        Article).link = "https://pubmed.ncbi.nlm.nih.gov/" ++ "12345" ++ "/" :=
  claim_C9 "12345"
    (.parsed (XmlNode.elem "PubmedArticleSet" []
      [XmlNode.elem "PubmedArticle" [] []]))
    _ rfl

/-- The per-uid loop of `get_summaries` computes the `filterMap` of
per-record construction over the uid list, skipping exactly the records
whose construction raises `ValidationError`. -/
theorem summaries_loop_filterMap (rkvs : List (String × Json)) :
    ∀ (uidStrs : List String) (acc : List NCBIClient.ArticleSummary),
      (∀ s ∈ uidStrs, recordBenign (jsonLookup rkvs s) = true) →
      NCBIClient.summaries_loop (.obj rkvs) (uidStrs.map Json.str) acc =
        .ok (acc ++ uidStrs.filterMap (fun s =>
          (jsonLookup rkvs s).bind
            (fun info => (NCBIClient.build_summary info).toOption))) := by
  intro uidStrs
  induction uidStrs with
  | nil =>
    intro acc _
    simp [NCBIClient.summaries_loop]
  | cons s rest ih =>
    intro acc hben
    have hben0 := hben s (List.mem_cons_self s rest)
    have hbenRest : ∀ t ∈ rest, recordBenign (jsonLookup rkvs t) = true :=
      fun t ht => hben t (List.mem_cons_of_mem s ht)
    simp only [List.map_cons, NCBIClient.summaries_loop, pyInJson,
      List.filterMap_cons]
    cases hlook : jsonLookup rkvs s with
    | none =>
      simp only [hlook, Option.isSome_none, bind, Except.bind, Bool.false_eq_true,
        if_false, Option.bind_none]
      exact ih acc hbenRest
    | some info =>
      simp only [hlook, Option.isSome_some, bind, Except.bind, if_true,
        pySubscript, Option.bind_some]
      rw [hlook] at hben0
      simp only [recordBenign] at hben0
      cases hbs : NCBIClient.build_summary info with
      | ok sm =>
        simp only [Option.bind_some, hbs, Except.toOption]
        rw [ih (acc ++ [sm]) hbenRest]
        simp [hbs, Except.toOption]
      | error e =>
        cases e with
        | validationError =>
          simp only [Option.bind_some, hbs, Except.toOption]
          rw [ih acc hbenRest]
          simp [hbs, Except.toOption]
        | _ =>
          rw [hbs] at hben0
          simp at hben0

/-- Claim C7 counterexample: four uids where three records are complete
and the fourth merely lacks its `"title"` key yield **four** summaries,
not three — a record missing a required field does not fail
construction, it is included with the `"No Title"` default (all
`info.get` calls supply defaults, so pydantic never sees a missing
field). -/
theorem claim_C7_counterexample :
    NCBIClient.get_summaries ["1", "2", "3", "4"]
      (some (.obj [("result", .obj
        [("uids", .arr [.str "1", .str "2", .str "3", .str "4"]),
         ("1", .obj [("uid", .str "1"), ("title", .str "T"),
                     ("pubdate", .str "2020"), ("source", .str "J")]),
         ("2", .obj [("uid", .str "2"), ("title", .str "T"),
                     ("pubdate", .str "2020"), ("source", .str "J")]),
         ("3", .obj [("uid", .str "3"), ("title", .str "T"),
                     ("pubdate", .str "2020"), ("source", .str "J")]),
         ("4", .obj [("uid", .str "4"),
                     ("pubdate", .str "2020"), ("source", .str "J")])])])) =
      ⟨.ok [⟨"1", "T", "2020", "J", []⟩, ⟨"2", "T", "2020", "J", []⟩,
            ⟨"3", "T", "2020", "J", []⟩, ⟨"4", "No Title", "2020", "J", []⟩],
       true⟩
  ∧ ([⟨"1", "T", "2020", "J", []⟩, ⟨"2", "T", "2020", "J", []⟩,
      ⟨"3", "T", "2020", "J", []⟩, ⟨"4", "No Title", "2020", "J", []⟩] :
        List NCBIClient.ArticleSummary).length ≠ 3 :=
  ⟨rfl, by decide⟩

/-- Claim C7 (amended): an empty id list yields `[]` with no network
call; and over a well-shaped response the summaries are exactly the
per-uid constructions, where a record whose construction raises
`ValidationError` (e.g. a null `"title"` value) is skipped while every
other record still yields a summary — but a record merely *missing*
fields is included with defaults, not skipped (see the
counterexample). -/
theorem claim_C7 :
    (∀ response, NCBIClient.get_summaries [] response = ⟨.ok [], false⟩)
  ∧ (∀ (p : String) (pmids : List String) (dkvs rkvs : List (String × Json))
        (uidStrs : List String),
      jsonLookup dkvs "result" = some (.obj rkvs) →
      jsonLookup rkvs "uids" = some (.arr (uidStrs.map Json.str)) →
      (∀ s ∈ uidStrs, recordBenign (jsonLookup rkvs s) = true) →
      NCBIClient.get_summaries (p :: pmids) (some (.obj dkvs)) =
        ⟨.ok (uidStrs.filterMap (fun s =>
          (jsonLookup rkvs s).bind
            (fun info => (NCBIClient.build_summary info).toOption))),
         true⟩) := by
  constructor
  · intro response
    rfl
  · intro p pmids dkvs rkvs uidStrs h1 h2 hben
    cases dkvs with
    | nil => simp [jsonLookup] at h1
    | cons d0 drest =>
      have htr : (Json.obj (d0 :: drest)).truthy = true := rfl
      simp only [NCBIClient.get_summaries, htr, Bool.not_true, Bool.false_eq_true,
        if_false, pyInJson, h1, Option.isSome_some, if_true, pySubscript,
        pyGetD, h2, Option.getD_some, NCBIClient.pyIterate, bind, Except.bind]
      rw [summaries_loop_filterMap rkvs uidStrs [] hben]
      simp

/-- Witness for C7: three valid records plus one whose `"title"` is
null (a `ValidationError`) yield exactly the three valid summaries. -/
theorem claim_C7_witness :
    NCBIClient.get_summaries ["1", "2", "3", "4"]
      (some (.obj [("result", .obj
        [("uids", .arr [.str "1", .str "2", .str "3", .str "4"]),
         ("1", .obj [("uid", .str "1"), ("title", .str "T"),
                     ("pubdate", .str "2020"), ("source", .str "J")]),
         ("2", .obj [("uid", .str "2"), ("title", .str "T"),
                     ("pubdate", .str "2020"), ("source", .str "J")]),
         ("3", .obj [("uid", .str "3"), ("title", .str "T"),
                     ("pubdate", .str "2020"), ("source", .str "J")]),
         ("4", .obj [("uid", .str "4"), ("title", .null),
                     ("pubdate", .str "2020"), ("source", .str "J")])])])) =
      ⟨.ok ((["1", "2", "3", "4"].filterMap (fun s =>
        (jsonLookup
          [("uids", .arr [.str "1", .str "2", .str "3", .str "4"]),
           ("1", .obj [("uid", .str "1"), ("title", .str "T"),
                       ("pubdate", .str "2020"), ("source", .str "J")]),
           ("2", .obj [("uid", .str "2"), ("title", .str "T"),
                       ("pubdate", .str "2020"), ("source", .str "J")]),
           ("3", .obj [("uid", .str "3"), ("title", .str "T"),
                       ("pubdate", .str "2020"), ("source", .str "J")]),
           ("4", .obj [("uid", .str "4"), ("title", .null),
                       ("pubdate", .str "2020"), ("source", .str "J")])] s).bind
          (fun info => (NCBIClient.build_summary info).toOption)))),
       true⟩ :=
  claim_C7.2 "1" ["2", "3", "4"] _ _ ["1", "2", "3", "4"] rfl rfl (by decide)

/-- Witness for C3: two concrete two-entry parameter dictionaries that
are permutations of each other share the cache key, and two concrete
inputs with different digests have different keys. -/
theorem claim_C3_witness :
    NCBIClient.generate_cache_key "https://e/esearch.fcgi" [("db", "pubmed"), ("term", "cancer")] =
      NCBIClient.generate_cache_key "https://e/esearch.fcgi" [("term", "cancer"), ("db", "pubmed")]
  ∧ NCBIClient.generate_cache_key "https://e/esearch.fcgi" [("db", "pubmed")] ≠
      NCBIClient.generate_cache_key "https://e/espell.fcgi" [("db", "pubmed")] :=
  ⟨claim_C3.1 _ _ _ (by decide),
   claim_C3.2.2 _ _ _ _ (by set_option maxRecDepth 8192 in decide)⟩
